import Mathlib

/-!
Verification development for the DAX-ai clone-orchestration repository.

The definitions below are a shallow embedding of the Python sources:
`db.py` (credential vault and referral ledger over SQLite),
`bot.py` (master orchestrator: referral deep links, startup reconcile),
`clone_worker.py` (per-clone worker: instructions commands, chat handler,
Gemini key rotation).  SQLite tables are modelled as association lists
keyed by the integer primary key; Fernet symmetric encryption is modelled
abstractly by a `Cipher` value recording the key it was produced under and
whether the bytes are intact, so that decryption succeeds exactly when the
configured key matches and the data is uncorrupted.
-/

/-- Association-list lookup; mirrors `SELECT ... WHERE key=?` returning the
first matching row. -/
def lookupA {κ α : Type} [DecidableEq κ] : List (κ × α) → κ → Option α
  | [], _ => none
  | (k, v) :: rest, key => if k = key then some v else lookupA rest key

/-- Association-list upsert; mirrors `INSERT ... ON CONFLICT(key) DO UPDATE`:
the existing row is replaced in place, otherwise a new row is appended. -/
def upsertA {κ α : Type} [DecidableEq κ] : List (κ × α) → κ → α → List (κ × α)
  | [], k, v => [(k, v)]
  | (k', v') :: rest, k, v =>
    if k' = k then (k, v) :: rest else (k', v') :: upsertA rest k v

/-- Association-list update; mirrors `UPDATE ... SET ... WHERE key=?`,
applying `f` to every row with the given key. -/
def updateA {κ α : Type} [DecidableEq κ] : List (κ × α) → κ → (α → α) → List (κ × α)
  | [], _, _ => []
  | (k', v) :: rest, k, f =>
    if k' = k then (k', f v) :: updateA rest k f else (k', v) :: updateA rest k f

/-- Mirrors `INSERT OR IGNORE`: appends the row only when the key is absent. -/
def insertOrIgnoreA {κ α : Type} [DecidableEq κ] (l : List (κ × α)) (k : κ) (v : α) :
    List (κ × α) :=
  if (lookupA l k).isSome then l else l ++ [(k, v)]

/-- Abstract model of a Fernet ciphertext: records the symmetric key it was
produced under and whether the stored bytes are intact (uncorrupted). -/
structure Cipher where
  key : Nat
  payload : String
  intact : Bool
deriving Repr, DecidableEq

/-- Model of `Fernet(key).encrypt(plain)` (db.py line 42). -/
def encrypt (key : Nat) (plain : String) : Cipher :=
  ⟨key, plain, true⟩

/-- Model of `Fernet(key).decrypt(c)` (db.py line 68): succeeds exactly when the
configured key matches the one the ciphertext was produced under and the
data is intact; otherwise Fernet raises `InvalidToken`, here `none`. -/
def decrypt (key : Nat) (c : Cipher) : Option String :=
  if c.key = key ∧ c.intact = true then some c.payload else none

/-- One row of the `clones` table (db.py lines 19-27). -/
structure CloneRow where
  bot_username : String
  token_encrypted : Cipher
  instructions : String
  active : Bool
deriving Repr, DecidableEq

/-- One row of the `referrals` table (db.py lines 28-34). -/
structure RefRow where
  count : Nat
  verified : Bool
deriving Repr, DecidableEq

/-- The SQLite database state together with the process-wide `MASTER_KEY`. -/
structure DbState where
  masterKey : Nat
  clones : List (Nat × CloneRow)
  referrals : List (Nat × RefRow)
deriving Repr, DecidableEq

/-- Value of `REFERRAL_THRESHOLD` (db.py line 8): the default 5. -/
def REFERRAL_THRESHOLD : Nat := 5

/-- Model of `db.save_clone` (db.py lines 40-53): encrypts the plaintext token with
the master key and upserts by user_id, setting active=1. -/
def save_clone (db : DbState) (user_id : Nat)
    (token_plain bot_username instructions : String) : DbState :=
  let row : CloneRow := ⟨bot_username, encrypt db.masterKey token_plain, instructions, true⟩
  { db with clones := upsertA db.clones user_id row }

/-- Error raised by `db.get_clone` when Fernet decryption fails
(db.py line 70). -/
inductive DbErr where
  | decryptionFailed
deriving Repr, DecidableEq

/-- The dict returned by `db.get_clone` (db.py line 71). -/
structure CloneRec where
  user_id : Nat
  bot_username : String
  token : String
  instructions : String
  active : Bool
deriving Repr, DecidableEq

/-- Model of `db.get_clone` (db.py lines 60-71): returns `none` when no row exists,
raises on decryption failure, otherwise returns the decrypted record. -/
def get_clone (db : DbState) (user_id : Nat) : Except DbErr (Option CloneRec) :=
  match lookupA db.clones user_id with
  | none => .ok none
  | some row =>
    match decrypt db.masterKey row.token_encrypted with
    | none => .error .decryptionFailed
    | some token =>
      .ok (some ⟨user_id, row.bot_username, token, row.instructions, row.active⟩)

/-- Model of `db.get_referral` (db.py lines 87-94). -/
def get_referral (db : DbState) (user_id : Nat) : Option RefRow :=
  lookupA db.referrals user_id

/-- Model of `db.ensure_referral_row` (db.py lines 96-100). -/
def ensure_referral_row (db : DbState) (user_id : Nat) : DbState :=
  { db with referrals := insertOrIgnoreA db.referrals user_id ⟨0, false⟩ }

/-- Model of `db.increment_referral` (db.py lines 102-117): ensures the row,
increments count, then re-reads; if the row is not yet verified and the
count has reached the threshold, sets verified and reports verified=true.
The returned dict mirrors the Python return value.  (The `none` branch of
the re-read is unreachable: the row was just ensured.) -/
def increment_referral (thr : Nat) (db : DbState) (user_id : Nat) : DbState × RefRow :=
  let db1 := ensure_referral_row db user_id
  let db2 := { db1 with
    referrals := updateA db1.referrals user_id (fun r => { r with count := r.count + 1 }) }
  match lookupA db2.referrals user_id with
  | none => (db2, ⟨0, false⟩)
  | some r =>
    if r.verified = false ∧ thr ≤ r.count then
      ({ db2 with
          referrals := updateA db2.referrals user_id (fun s => { s with verified := true }) },
        ⟨r.count, true⟩)
    else
      (db2, r)

/-- Model of the `db.list_active_clones` inner loop (db.py lines 77-82): `get_clone` for
each selected user id, keeping the truthy results; a decryption failure
propagates out of the loop. -/
def collect_clones (db : DbState) : List Nat → Except DbErr (List CloneRec)
  | [] => .ok []
  | uid :: rest =>
    match get_clone db uid, collect_clones db rest with
    | .error e, _ => .error e
    | .ok _, .error e => .error e
    | .ok none, .ok others => .ok others
    | .ok (some c), .ok others => .ok (c :: others)

/-- Model of `db.list_active_clones` (db.py lines 73-82): selects the user ids of
rows with active=1 and decrypts each record. -/
def list_active_clones (db : DbState) : Except DbErr (List CloneRec) :=
  collect_clones db ((db.clones.filter (fun p => p.2.active)).map (fun p => p.1))

/-- In-memory master-bot state (bot.py lines 60-64): `referral_codes` maps a
deep-link code to its referrer id, `referral_users` records which joiner ids
have already been counted (and for whom), `user_referrals` is the in-memory
cache of the persisted ledger, and `db` is the backing store. -/
structure MasterState where
  db : DbState
  referral_codes : List (String × Nat)
  referral_users : List (Nat × Nat)
  user_referrals : List (Nat × RefRow)
deriving Repr, DecidableEq

/-- Model of `bot.handle_referral` (bot.py lines 86-129), state effects only (the
outbound chat notifications are pure output and are omitted): when the code
is known and the joiner has not been counted before, records the joiner,
increments the referrer's persisted ledger row, and refreshes the in-memory
cache (including the never-firing late verified-flip of line 109). -/
def handle_referral (st : MasterState) (referral_code : String) (new_user_id : Nat) :
    MasterState :=
  match lookupA st.referral_codes referral_code with
  | none => st
  | some referrer_id =>
    if (lookupA st.referral_users new_user_id).isSome then st
    else
      let st1 := { st with referral_users := st.referral_users ++ [(new_user_id, referrer_id)] }
      let res := increment_referral REFERRAL_THRESHOLD st1.db referrer_id
      let st2 :=
        { st1 with
          db := res.1
          user_referrals := upsertA st1.user_referrals referrer_id res.2 }
      if res.2.verified = false ∧ REFERRAL_THRESHOLD ≤ res.2.count then
        { st2 with user_referrals :=
            updateA st2.user_referrals referrer_id (fun r => { r with verified := true }) }
      else st2

/-- The persisted referral count of a user, reading an absent row as 0
(mirrors `ref_row.get("count", 0)` in bot.py line 107). -/
def referral_count (db : DbState) (user_id : Nat) : Nat :=
  match get_referral db user_id with
  | some r => r.count
  | none => 0

/-- Iterated increment: `iterate_increment thr db uid n` applies `db.increment_referral` n times
for the same referrer, modelling n successive referred joins. -/
def iterate_increment (thr : Nat) (db : DbState) (user_id : Nat) : Nat → DbState
  | 0 => db
  | n + 1 => (increment_referral thr (iterate_increment thr db user_id n) user_id).1

/-- Does the character list start with the given pattern? -/
def chars_start_with : List Char → List Char → Bool
  | [], _ => true
  | _ :: _, [] => false
  | p :: ps, c :: cs => p = c && chars_start_with ps cs

/-- Does the character list contain the pattern as a contiguous run? -/
def chars_contain : List Char → List Char → Bool
  | pat, [] => pat.isEmpty
  | pat, c :: cs => chars_start_with pat (c :: cs) || chars_contain pat cs

/-- Python's `pat in s` substring test on strings. -/
def str_contains (s pat : String) : Bool :=
  chars_contain pat.data s.data

/-- Process-local Gemini client state of a worker (clone_worker.py lines
25-33): the key pool, `current_key_index`, and the configured model —
`some i` standing for a model configured with key number `i`, `none` for
disabled generation. -/
structure GeminiState where
  keys : List String
  idx : Nat
  model : Option Nat
deriving Repr, DecidableEq

/-- Model of `clone_worker.configure_gemini` (lines 35-51), parameterised by which
key indices the external `genai.configure` call accepts (`cfg`).  On a
configuration failure with more than one key it advances the index and
retries; Python recurses without bound in that case, so the model carries a
fuel argument whose exhaustion branch (disabling the model) is unreachable
in every theorem below, all of which configure successfully on the first
attempt. -/
def configure_gemini (cfg : Nat → Bool) : Nat → GeminiState → GeminiState
  | 0, gs =>
    if gs.keys.length = 0 then { gs with model := none }
    else if cfg gs.idx then { gs with model := some gs.idx }
    else { gs with model := none }
  | fuel + 1, gs =>
    if gs.keys.length = 0 then { gs with model := none }
    else if cfg gs.idx then { gs with model := some gs.idx }
    else if 1 < gs.keys.length then
      configure_gemini cfg fuel { gs with idx := (gs.idx + 1) % gs.keys.length }
    else { gs with model := none }

/-- Model of `clone_worker.rotate_gemini_key` (lines 53-59): a no-op on an empty
pool, otherwise advances `current_key_index` by one modulo the pool size
and reconfigures. -/
def rotate_gemini_key (cfg : Nat → Bool) (gs : GeminiState) : GeminiState :=
  if gs.keys.isEmpty then gs
  else
    let gs1 := { gs with idx := (gs.idx + 1) % gs.keys.length }
    configure_gemini cfg gs1.keys.length gs1

/-- Model of `clone_worker.owner_remaining_referrals` (lines 61-68): looks up the
referral row of the clone owner (CLONE_USER_ID) and returns
`(max 0 (threshold - count), verified)`; an absent row reads as
`(0, False)`. -/
def owner_remaining_referrals (db : DbState) (clone_user_id : Nat) : Nat × Bool :=
  let ref := (get_referral db clone_user_id).getD ⟨0, false⟩
  (REFERRAL_THRESHOLD - ref.count, ref.verified)

/-- The watermark suffix appended by the worker while the owner is not
verified (clone_worker.py lines 152-156 and 168-172). -/
def watermark_text (remaining : Nat) : String :=
  "\n\n┈┈┈┈┈┈┈┈┈┈┈┈\n" ++ "🔹 Made by @dn_aimaker_bot\n" ++
    "📊 " ++ toString remaining ++ " referrals needed to remove watermark"

/-- The instructions the chat handler reads from the fetched clone record:
`clone.get("instructions", "") if clone else ""` (clone_worker.py
line 145). -/
def clone_instructions : Option CloneRec → String
  | some c => c.instructions
  | none => ""

/-- The prompt built for the generator (clone_worker.py line 162):
`f"{instructions}\n\nUser: {user_text}" if instructions else user_text`. -/
def chat_prompt (instructions user_text : String) : String :=
  if instructions = "" then user_text
  else instructions ++ "\n\nUser: " ++ user_text

/-- The quota/rate heuristic of clone_worker.py line 177:
`"429" in str(e) or "quota" in str(e) or "rate" in str(e)`. -/
def is_quota_error (e : String) : Bool :=
  str_contains e "429" || str_contains e "quota" || str_contains e "rate"

/-- Outcome of one invocation of the worker's chat handler: the process
exited (dead bot token), an exception escaped the handler (decryption
failure in `get_clone`), or a reply was sent.  `replied` carries the reply
text, the Gemini client state after the call, and how many times the
generator was invoked. -/
inductive ChatResult where
  | exited
  | raised (e : DbErr)
  | replied (text : String) (gemini : GeminiState) (genCalls : Nat)
deriving Repr, DecidableEq

/-- Model of `clone_worker.chat_handler` (lines 137-181).  Here `sender_id` is the id of
the message sender, which the handler receives but never reads; `alive` is
the outcome of the transport liveness probe (`check_clone_alive`); `cfg`
parameterises `genai.configure` success; `gen` is the external
`model.generate_content` call, returning text or an error message string.
When the model is disabled the echo fallback of lines 148-159 runs; on a
generation error matching the quota heuristic the key is rotated and the
retry notice is sent without re-invoking the generator. -/
def chat_handler (db : DbState) (clone_user_id _sender_id : Nat) (msg_text : String)
    (alive : Bool) (gs : GeminiState) (cfg : Nat → Bool)
    (gen : String → Except String String) : ChatResult :=
  match get_clone db clone_user_id with
  | .error e => .raised e
  | .ok clone =>
    let tokenTruthy := match clone with
      | some c => !(c.token == "")
      | none => false
    if tokenTruthy && !alive then .exited
    else
      let instructions := clone_instructions clone
      let user_text := msg_text
      match gs.model with
      | none =>
        let base := if instructions = "" then "You said: " ++ user_text
          else instructions ++ "\n\nYou said: " ++ user_text
        let rv := owner_remaining_referrals db clone_user_id
        let reply := if rv.2 = false then base ++ watermark_text rv.1 else base
        .replied reply gs 0
      | some _ =>
        let prompt := chat_prompt instructions user_text
        match gen prompt with
        | .ok response_text =>
          let rv := owner_remaining_referrals db clone_user_id
          let reply := if rv.2 = false then response_text ++ watermark_text rv.1
            else response_text
          .replied reply gs 1
        | .error e =>
          if is_quota_error e then
            .replied "Bug error😥 — please try again." (rotate_gemini_key cfg gs) 1
          else
            .replied "⚠️ Sorry, I couldn't process that right now. Try again later" gs 1

/-- Python runtime error raised when a function is called with the wrong
number of positional arguments. -/
inductive PyErr where
  | typeError
deriving Repr, DecidableEq

/-- The call `save_clone(CLONE_USER_ID, clone["token"], clone.get("bot_username", ""),
new_instructions, clone.get("owner_username",""))` made by the worker
(clone_worker.py line 112): it passes five positional arguments, but
`db.save_clone` (db.py line 40) declares only four parameters
(user_id, token_plain, bot_username, instructions), so in Python the call
raises `TypeError` before any database write takes place. -/
def save_clone_five_args (_db : DbState) (_user_id : Nat)
    (_token_plain _bot_username _instructions _owner_username : String) :
    Except PyErr DbState :=
  .error .typeError

/-- Python's `" ".join(args)`. -/
def join_spaces : List String → String
  | [] => ""
  | [w] => w
  | w :: ws => w ++ " " ++ join_spaces ws

/-- Outcome of the worker's `/set_instructions` command handler: either an
exception escaped (decryption failure) or a reply was sent; `replied`
carries the reply text and the database state afterwards. -/
inductive SetInstrResult where
  | raised (e : DbErr)
  | replied (text : String) (db : DbState)
deriving Repr, DecidableEq

/-- Model of `clone_worker.set_instructions` (lines 99-119): rejects non-owner
senders with no state change; for the owner with arguments it joins and
strips them and attempts the five-argument `save_clone` call of line 112,
whose `TypeError` is caught by the `except` of line 114, producing the
failure reply with the database unchanged; with no arguments it shows the
current instructions. -/
def set_instructions_handler (db : DbState) (clone_user_id sender_id : Nat)
    (args : List String) : SetInstrResult :=
  if sender_id ≠ clone_user_id then
    .replied "❌ Only the owner can change instructions." db
  else
    match get_clone db clone_user_id with
    | .error e => .raised e
    | .ok none => .replied "❌ Clone record not found." db
    | .ok (some clone) =>
      match args with
      | [] =>
        let current := if clone.instructions = "" then "(none)" else clone.instructions
        .replied ("📝 Current instructions:\n\n" ++ current ++
          "\n\nTo change: /set_instructions [text]\nTo clear: /clear_instructions") db
      | _ :: _ =>
        let new_instructions := (join_spaces args).trim
        match save_clone_five_args db clone_user_id clone.token clone.bot_username
            new_instructions "" with
        | .ok db2 => .replied "✅ Instructions updated." db2
        | .error _ => .replied "❌ Failed to save instructions." db

/-- The startup reconcile loop of `bot.main` (bot.py lines 333-343): reads
the active clone records and attempts one worker spawn per record; each
spawn attempt is wrapped in its own try/except, so a failure (`spawnOk`
false) is logged and skipped without stopping the loop.  A failure of the
initial `list_active_clones` read is caught by the outer try and yields no
attempts.  Returns the list of (ownerId, spawn succeeded) attempts in
order. -/
def reconcile_on_startup (db : DbState) (spawnOk : Nat → Bool) : List (Nat × Bool) :=
  match list_active_clones db with
  | .error _ => []
  | .ok recs => recs.map (fun r => (r.user_id, spawnOk r.user_id))

/-- An empty database under master key 0, used as a concrete start state. -/
def db0 : DbState := ⟨0, [], []⟩

/-- Concrete store for the set_instructions scenario: one clone record for
owner 1 with instructions "old". -/
def dbC6 : DbState := save_clone ⟨7, [], []⟩ 1 "tok" "mybot" "old"

/-- Concrete store whose single clone row holds ciphertext produced under
key 1 while the configured master key is 2 (a foreign-key ciphertext). -/
def dbC9 : DbState := ⟨2, [(1, ⟨"b", ⟨1, "tok", true⟩, "i", true⟩)], []⟩

/-- Concrete store with two active clone records, ids 10 and 20. -/
def dbC8 : DbState :=
  save_clone (save_clone ⟨0, [], []⟩ 10 "t10" "b10" "i10") 20 "t20" "b20" "i20"

theorem lookupA_upsertA_self {κ α : Type} [DecidableEq κ]
    (l : List (κ × α)) (k : κ) (v : α) :
    lookupA (upsertA l k v) k = some v := by
  induction l with
  | nil => simp [upsertA, lookupA]
  | cons hd tl ih =>
    obtain ⟨k', v'⟩ := hd
    by_cases h : k' = k
    · simp [upsertA, h, lookupA]
    · simp [upsertA, h, lookupA, ih]

/-- Claim C1: for every ownerId and every plaintext token, display name and
instructions string, `save_clone` followed by `get_clone` returns a record
whose token, bot_username and instructions fields equal the saved plaintext
values and whose active flag is true (the credential round-trips through
encryption). -/
theorem save_then_get_clone_roundtrip (db : DbState) (user_id : Nat)
    (token_plain bot_username instructions : String) :
    get_clone (save_clone db user_id token_plain bot_username instructions) user_id =
      .ok (some ⟨user_id, bot_username, token_plain, instructions, true⟩) := by
  simp [get_clone, save_clone, lookupA_upsertA_self, decrypt, encrypt]

theorem lookupA_append_of_none {κ α : Type} [DecidableEq κ]
    (l l2 : List (κ × α)) (k : κ) (h : lookupA l k = none) :
    lookupA (l ++ l2) k = lookupA l2 k := by
  induction l with
  | nil => simp
  | cons hd tl ih =>
    obtain ⟨k', v'⟩ := hd
    by_cases hk : k' = k
    · simp [lookupA, hk] at h
    · simp only [List.cons_append, lookupA] at h ⊢
      rw [if_neg hk] at h ⊢
      exact ih h

theorem lookupA_updateA_self {κ α : Type} [DecidableEq κ]
    (l : List (κ × α)) (k : κ) (f : α → α) :
    lookupA (updateA l k f) k = (lookupA l k).map f := by
  induction l with
  | nil => simp [updateA, lookupA]
  | cons hd tl ih =>
    obtain ⟨k', v'⟩ := hd
    by_cases hk : k' = k
    · simp [updateA, lookupA, hk]
    · simp [updateA, lookupA, hk, ih]

theorem ensure_referral_row_lookup (db : DbState) (uid : Nat) :
    lookupA (ensure_referral_row db uid).referrals uid =
      some ((lookupA db.referrals uid).getD ⟨0, false⟩) := by
  unfold ensure_referral_row insertOrIgnoreA
  cases h : lookupA db.referrals uid with
  | none => simp [h, lookupA_append_of_none _ _ _ h, lookupA]
  | some r => simp [h]

theorem increment_referral_spec (thr : Nat) (db : DbState) (uid c : Nat) (v : Bool)
    (h : (lookupA db.referrals uid).getD ⟨0, false⟩ = ⟨c, v⟩) :
    lookupA (increment_referral thr db uid).1.referrals uid =
      some ⟨c + 1, v || decide (thr ≤ c + 1)⟩ ∧
    (increment_referral thr db uid).2 = ⟨c + 1, v || decide (thr ≤ c + 1)⟩ := by
  have h1 : lookupA (ensure_referral_row db uid).referrals uid = some (⟨c, v⟩ : RefRow) := by
    rw [ensure_referral_row_lookup, h]
  have h2 : lookupA (updateA (ensure_referral_row db uid).referrals uid
      (fun r => { r with count := r.count + 1 })) uid = some (⟨c + 1, v⟩ : RefRow) := by
    rw [lookupA_updateA_self, h1]
    rfl
  by_cases hv : v = false ∧ thr ≤ c + 1
  · obtain ⟨hv1, hv2⟩ := hv
    subst hv1
    have hd : decide (thr ≤ c + 1) = true := decide_eq_true hv2
    constructor
    · simp [increment_referral, h2, hv2, hd, lookupA_updateA_self]
    · simp [increment_referral, h2, hv2, hd]
  · cases v with
    | true =>
      constructor
      · simp [increment_referral, h2]
      · simp [increment_referral, h2]
    | false =>
      have hc : ¬ thr ≤ c + 1 := by
        intro hle
        exact hv ⟨rfl, hle⟩
      have hd : decide (thr ≤ c + 1) = false := decide_eq_false hc
      constructor
      · simp [increment_referral, h2, hc, hd]
      · simp [increment_referral, h2, hc, hd]

theorem referral_count_increment (thr : Nat) (db : DbState) (uid : Nat) :
    referral_count (increment_referral thr db uid).1 uid = referral_count db uid + 1 := by
  cases h : lookupA db.referrals uid with
  | none =>
    have hs := (increment_referral_spec thr db uid 0 false (by rw [h]; rfl)).1
    simp [referral_count, get_referral, hs, h]
  | some r =>
    have hs := (increment_referral_spec thr db uid r.count r.verified (by rw [h]; rfl)).1
    simp [referral_count, get_referral, hs, h]

/-- Claim C2: processing the same referral deep-link join twice — a valid
referral code for the referrer and the same (fresh) joiner id both times —
increases the referrer's persisted count by exactly 1, not 2: the second
`handle_referral` call for the already-counted joiner changes nothing. -/
theorem handle_referral_idempotent_per_joiner
    (st : MasterState) (code : String) (joiner referrer : Nat)
    (hcode : lookupA st.referral_codes code = some referrer)
    (hnew : lookupA st.referral_users joiner = none) :
    referral_count (handle_referral (handle_referral st code joiner) code joiner).db
        referrer
      = referral_count st.db referrer + 1 ∧
    handle_referral (handle_referral st code joiner) code joiner =
      handle_referral st code joiner := by
  have key1 : (handle_referral st code joiner).db =
      (increment_referral REFERRAL_THRESHOLD st.db referrer).1 := by
    simp only [handle_referral, hcode, hnew, Option.isSome_none, Bool.false_eq_true,
      if_false]
    split <;> rfl
  have key2 : (handle_referral st code joiner).referral_users =
      st.referral_users ++ [(joiner, referrer)] := by
    simp only [handle_referral, hcode, hnew, Option.isSome_none, Bool.false_eq_true,
      if_false]
    split <;> rfl
  have key3 : (handle_referral st code joiner).referral_codes = st.referral_codes := by
    simp only [handle_referral, hcode, hnew, Option.isSome_none, Bool.false_eq_true,
      if_false]
    split <;> rfl
  have hcode2 : lookupA (handle_referral st code joiner).referral_codes code =
      some referrer := by
    rw [key3]
    exact hcode
  have hjoin : (lookupA (handle_referral st code joiner).referral_users joiner).isSome
      = true := by
    rw [key2, lookupA_append_of_none _ _ _ hnew]
    simp [lookupA]
  have hsecond : ∀ st2 : MasterState, lookupA st2.referral_codes code = some referrer →
      (lookupA st2.referral_users joiner).isSome = true →
      handle_referral st2 code joiner = st2 := by
    intro st2 h1 h2
    simp [handle_referral, h1, h2]
  refine ⟨?_, hsecond _ hcode2 hjoin⟩
  rw [hsecond _ hcode2 hjoin, key1, referral_count_increment]

/-- Witness for C2 at a concrete state: referrer 1 owns code "ref_1_abc",
joiner 2 joins through it twice. -/
theorem handle_referral_idempotent_per_joiner_witness :
    referral_count (handle_referral
        (handle_referral ⟨db0, [("ref_1_abc", 1)], [], []⟩ "ref_1_abc" 2)
        "ref_1_abc" 2).db 1
      = referral_count db0 1 + 1 ∧
    handle_referral (handle_referral ⟨db0, [("ref_1_abc", 1)], [], []⟩ "ref_1_abc" 2)
        "ref_1_abc" 2 =
      handle_referral ⟨db0, [("ref_1_abc", 1)], [], []⟩ "ref_1_abc" 2 :=
  handle_referral_idempotent_per_joiner ⟨db0, [("ref_1_abc", 1)], [], []⟩
    "ref_1_abc" 2 1 (by decide) rfl

theorem iterate_increment_lookup (thr : Nat) (db : DbState) (uid : Nat)
    (h : lookupA db.referrals uid = none) :
    ∀ n : Nat, 1 ≤ n →
      lookupA (iterate_increment thr db uid n).referrals uid =
        some ⟨n, decide (thr ≤ n)⟩ := by
  intro n
  induction n with
  | zero => omega
  | succ m ih =>
    intro _
    cases Nat.eq_zero_or_pos m with
    | inl h0 =>
      subst h0
      have hs := (increment_referral_spec thr db uid 0 false (by rw [h]; rfl)).1
      simpa [iterate_increment] using hs
    | inr hpos =>
      have hm := ih hpos
      have hs := (increment_referral_spec thr (iterate_increment thr db uid m) uid m
        (decide (thr ≤ m)) (by rw [hm]; rfl)).1
      have hb : (decide (thr ≤ m) || decide (thr ≤ m + 1)) = decide (thr ≤ m + 1) := by
        by_cases h5 : thr ≤ m
        · simp [h5, Nat.le_succ_of_le h5]
        · simp [h5]
      simp only [iterate_increment]
      rw [hs, hb]

/-- Claim C3 counterexample: starting from an empty ledger with the default
threshold 5, the 5th and the 6th `increment_referral` calls for the same
referrer BOTH return verified=true, so the claim that verified=true is
returned exactly once, on the crossing call, is false: the returned field
mirrors the stored flag and stays true on every call after the crossing. -/
theorem increment_referral_returns_true_twice :
    (increment_referral REFERRAL_THRESHOLD (iterate_increment REFERRAL_THRESHOLD db0 1 4)
        1).2.verified = true ∧
    (increment_referral REFERRAL_THRESHOLD (iterate_increment REFERRAL_THRESHOLD db0 1 5)
        1).2.verified = true :=
  ⟨rfl, rfl⟩

/-- Claim C3 (amended): with the threshold at its default 5, for a referrer
whose ledger row starts absent, after the n-th distinct joiner (n ≥ 1) the
stored row reads count = n and verified = (5 ≤ n) — `get_referral` returns
verified=false strictly before the 5th joiner, verified=true from the 5th
joiner on, and the stored flag flips exactly on the crossing call — and the
n-th `increment_referral` call returns count = n and verified = (5 ≤ n):
verified=true is returned on the crossing call and on every subsequent
call (the returned field mirrors the stored flag), not exactly once. -/
theorem increment_referral_threshold_behavior
    (db : DbState) (uid : Nat) (h : lookupA db.referrals uid = none)
    (n : Nat) (hn : 1 ≤ n) :
    get_referral (iterate_increment REFERRAL_THRESHOLD db uid n) uid =
      some ⟨n, decide (REFERRAL_THRESHOLD ≤ n)⟩ ∧
    (increment_referral REFERRAL_THRESHOLD
        (iterate_increment REFERRAL_THRESHOLD db uid (n - 1)) uid).2 =
      ⟨n, decide (REFERRAL_THRESHOLD ≤ n)⟩ := by
  constructor
  · rw [get_referral]
    exact iterate_increment_lookup REFERRAL_THRESHOLD db uid h n hn
  · obtain ⟨m, rfl⟩ : ∃ m, n = m + 1 := ⟨n - 1, (Nat.succ_pred_eq_of_pos hn).symm⟩
    simp only [Nat.add_sub_cancel]
    cases Nat.eq_zero_or_pos m with
    | inl h0 =>
      subst h0
      have hs := (increment_referral_spec REFERRAL_THRESHOLD db uid 0 false
        (by rw [h]; rfl)).2
      simpa [iterate_increment] using hs
    | inr hpos =>
      have hm := iterate_increment_lookup REFERRAL_THRESHOLD db uid h m hpos
      have hs := (increment_referral_spec REFERRAL_THRESHOLD
        (iterate_increment REFERRAL_THRESHOLD db uid m) uid m
        (decide (REFERRAL_THRESHOLD ≤ m)) (by rw [hm]; rfl)).2
      have hb : (decide (REFERRAL_THRESHOLD ≤ m) || decide (REFERRAL_THRESHOLD ≤ m + 1))
          = decide (REFERRAL_THRESHOLD ≤ m + 1) := by
        by_cases h5 : REFERRAL_THRESHOLD ≤ m
        · simp [h5, Nat.le_succ_of_le h5]
        · simp [h5]
      rw [hs, hb]

/-- Witness for the amended C3 at the crossing call: from an empty ledger,
after 5 joiners the stored row is (5, verified) and the 5th call returned
(5, verified). -/
theorem increment_referral_threshold_behavior_witness :
    get_referral (iterate_increment REFERRAL_THRESHOLD db0 1 5) 1 =
      some ⟨5, decide (REFERRAL_THRESHOLD ≤ 5)⟩ ∧
    (increment_referral REFERRAL_THRESHOLD
        (iterate_increment REFERRAL_THRESHOLD db0 1 (5 - 1)) 1).2 =
      ⟨5, decide (REFERRAL_THRESHOLD ≤ 5)⟩ :=
  increment_referral_threshold_behavior db0 1 rfl 5 (by decide)

/-- Claim C5: the prompt passed to the generator is
`instructions ++ "\n\nUser: " ++ text` for non-empty instructions and the
user text verbatim for empty instructions; concretely, instructions
"You are terse." and message "hi" yield exactly
"You are terse.\n\nUser: hi".  The final conjunct ties the prompt to the
chat handler: its behaviour depends on the generator only through the
generator's value at `chat_prompt instructions text`, i.e. that string is
the one prompt passed to the generation call. -/
theorem chat_prompt_spec (s t : String) (hs : s ≠ "") :
    chat_prompt s t = s ++ "\n\nUser: " ++ t ∧
    chat_prompt "" t = t ∧
    chat_prompt "You are terse." "hi" = "You are terse.\n\nUser: hi" ∧
    (∀ (db : DbState) (u sid : Nat) (alive : Bool) (gs : GeminiState)
        (cfg : Nat → Bool) (g1 g2 : String → Except String String)
        (cl : Option CloneRec),
      get_clone db u = .ok cl →
      g1 (chat_prompt (clone_instructions cl) t) =
        g2 (chat_prompt (clone_instructions cl) t) →
      chat_handler db u sid t alive gs cfg g1 = chat_handler db u sid t alive gs cfg g2) := by
  refine ⟨by simp [chat_prompt, hs], by simp [chat_prompt], rfl, ?_⟩
  intro db u sid alive gs cfg g1 g2 cl hcl hg
  simp only [chat_handler, hcl]
  cases gs.model with
  | none => rfl
  | some m => simp only [hg]

/-- Witness for C5 at the concrete scenario of the spec. -/
theorem chat_prompt_spec_witness :
    chat_prompt "You are terse." "hi" = "You are terse.\n\nUser: hi" :=
  (chat_prompt_spec "You are terse." "hi" (by decide)).2.2.1

/-- Claim C10: rotating the Gemini key with an empty key pool is a no-op:
`rotate_gemini_key` returns immediately and leaves the current key index
and the model state unchanged (no modulo-by-zero). -/
theorem rotate_gemini_key_empty_pool (cfg : Nat → Bool) (idx : Nat) (m : Option Nat) :
    rotate_gemini_key cfg ⟨[], idx, m⟩ = ⟨[], idx, m⟩ :=
  rfl

/-- Claim C9: when the stored ciphertext for an ownerId cannot be decrypted
under the configured master key — produced under a foreign key or corrupted
— `get_clone` fails with the decryption error and never returns a record
with garbage plaintext. -/
theorem get_clone_foreign_ciphertext_fails
    (db : DbState) (uid : Nat) (row : CloneRow)
    (hrow : lookupA db.clones uid = some row)
    (hbad : row.token_encrypted.key ≠ db.masterKey ∨ row.token_encrypted.intact = false) :
    get_clone db uid = .error .decryptionFailed ∧
    ∀ rec : CloneRec, get_clone db uid ≠ .ok (some rec) := by
  have hdec : decrypt db.masterKey row.token_encrypted = none := by
    unfold decrypt
    rcases hbad with hb | hb
    · rw [if_neg]
      intro hc
      exact hb hc.1
    · rw [if_neg]
      intro hc
      rw [hb] at hc
      exact Bool.false_ne_true hc.2
  have hmain : get_clone db uid = .error .decryptionFailed := by
    simp [get_clone, hrow, hdec]
  refine ⟨hmain, ?_⟩
  intro rec hcontra
  rw [hmain] at hcontra
  exact Except.noConfusion hcontra

/-- Witness for C9: a store whose single row was encrypted under key 1
while the configured master key is 2. -/
theorem get_clone_foreign_ciphertext_fails_witness :
    get_clone dbC9 1 = .error .decryptionFailed ∧
    ∀ rec : CloneRec, get_clone dbC9 1 ≠ .ok (some rec) :=
  get_clone_foreign_ciphertext_fails dbC9 1 ⟨"b", ⟨1, "tok", true⟩, "i", true⟩ rfl
    (Or.inl (by decide))

theorem configure_gemini_first_ok (cfg : Nat → Bool) (fuel : Nat) (gs : GeminiState)
    (hk : gs.keys.length ≠ 0) (hc : cfg gs.idx = true) :
    configure_gemini cfg fuel gs = { gs with model := some gs.idx } := by
  cases fuel <;> simp [configure_gemini, hk, hc]

theorem rotate_gemini_key_advances (cfg : Nat → Bool) (gs : GeminiState)
    (hk : gs.keys ≠ [])
    (hc : cfg ((gs.idx + 1) % gs.keys.length) = true) :
    rotate_gemini_key cfg gs =
      { gs with idx := (gs.idx + 1) % gs.keys.length,
                model := some ((gs.idx + 1) % gs.keys.length) } := by
  have hk0 : gs.keys.length ≠ 0 := by
    intro h0
    exact hk (List.length_eq_zero.mp h0)
  have hne : gs.keys.isEmpty = false := by
    cases hgs : gs.keys with
    | nil => exact absurd hgs hk
    | cons a l => rfl
  have hstep := configure_gemini_first_ok cfg
    (({ gs with idx := (gs.idx + 1) % gs.keys.length } : GeminiState)).keys.length
    { gs with idx := (gs.idx + 1) % gs.keys.length } hk0 hc
  simp only [rotate_gemini_key, hne, Bool.false_eq_true, if_false]
  exact hstep

/-- Claim C7: when the generation call fails with an error carrying a
quota/rate/429 marker, the handler replies with the rotation retry notice
and the current key index advances by exactly one modulo the key-pool size
(the pool being non-empty and the next key configuring successfully); the
generator is invoked exactly once — the failed call is not retried. -/
theorem chat_handler_quota_rotates_once
    (db : DbState) (u sid : Nat) (msg err : String) (gs : GeminiState)
    (cfg : Nat → Bool) (m : Nat) (cl : Option CloneRec)
    (hcl : get_clone db u = .ok cl)
    (hm : gs.model = some m)
    (hq : is_quota_error err = true)
    (hk : gs.keys ≠ [])
    (hc : cfg ((gs.idx + 1) % gs.keys.length) = true) :
    chat_handler db u sid msg true gs cfg (fun _ => .error err) =
      .replied "Bug error😥 — please try again."
        { gs with idx := (gs.idx + 1) % gs.keys.length,
                  model := some ((gs.idx + 1) % gs.keys.length) } 1 := by
  simp only [chat_handler, hcl, hm, hq, Bool.not_true, Bool.and_false,
    Bool.false_eq_true, if_false, if_true, rotate_gemini_key_advances cfg gs hk hc]

/-- Witness for C7: two keys, index 0, error text "quota"; the reply is the
retry notice and the index advances to 1 with the model reconfigured. -/
theorem chat_handler_quota_rotates_once_witness :
    chat_handler db0 1 2 "hi" true ⟨["a", "b"], 0, some 0⟩ (fun _ => true)
        (fun _ => .error "quota") =
      .replied "Bug error😥 — please try again." ⟨["a", "b"], 1, some 1⟩ 1 :=
  chat_handler_quota_rotates_once db0 1 2 "hi" "quota" ⟨["a", "b"], 0, some 0⟩
    (fun _ => true) 0 none rfl rfl rfl (by decide) rfl

/-- Claim C4 counterexample: a chat message handled while the owner's
referral record has verified=false, whose generation call fails with a
quota error, gets the retry-notice reply — which does not contain the
watermark suffix.  So it is not the case that every handled chat message's
reply contains the watermark iff the owner is unverified. -/
theorem chat_reply_error_lacks_watermark :
    chat_handler db0 1 2 "hi" true ⟨["k1"], 0, some 0⟩ (fun _ => true)
        (fun _ => .error "quota") =
      .replied "Bug error😥 — please try again." ⟨["k1"], 0, some 0⟩ 1 ∧
    (owner_remaining_referrals db0 1).2 = false ∧
    str_contains "Bug error😥 — please try again."
      (watermark_text (owner_remaining_referrals db0 1).1) = false :=
  ⟨rfl, rfl, rfl⟩

/-- Claim C4 (amended): for every chat message whose generation call
succeeds — and likewise for the disabled-model echo fallback — the reply
equals the generated text (respectively the echo text of lines 148-149)
with the watermark suffix appended exactly when the referral record of the
clone's owner (CLONE_USER_ID, the `clone_user_id` argument) has
verified=false, and the reply is independent of the message sender's id —
the referral state consulted is the owner's, never the sender's.
(Error-notice replies, as in the counterexample, carry no watermark.)
The third conjunct is the fallback case: for any Gemini state with the
model disabled, the echo reply gets the watermark exactly when the owner
is unverified. -/
theorem chat_reply_watermark_iff_owner_unverified
    (db : DbState) (u s1 s2 : Nat) (msg txt : String) (gs : GeminiState)
    (cfg : Nat → Bool) (gen : String → Except String String) (m : Nat)
    (cl : Option CloneRec)
    (hcl : get_clone db u = .ok cl)
    (hm : gs.model = some m)
    (hgen : ∀ p, gen p = .ok txt) :
    chat_handler db u s1 msg true gs cfg gen =
      .replied (if (owner_remaining_referrals db u).2 = false then
          txt ++ watermark_text (owner_remaining_referrals db u).1
        else txt) gs 1 ∧
    chat_handler db u s1 msg true gs cfg gen =
      chat_handler db u s2 msg true gs cfg gen ∧
    ∀ gs0 : GeminiState, gs0.model = none →
      chat_handler db u s1 msg true gs0 cfg gen =
        .replied (if (owner_remaining_referrals db u).2 = false then
            (if clone_instructions cl = "" then "You said: " ++ msg
              else clone_instructions cl ++ "\n\nYou said: " ++ msg) ++
              watermark_text (owner_remaining_referrals db u).1
          else
            (if clone_instructions cl = "" then "You said: " ++ msg
              else clone_instructions cl ++ "\n\nYou said: " ++ msg)) gs0 0 := by
  refine ⟨?_, rfl, ?_⟩
  · simp only [chat_handler, hcl, hm, hgen, Bool.not_true, Bool.and_false,
      Bool.false_eq_true, if_false]
  · intro gs0 hm0
    simp only [chat_handler, hcl, hm0, Bool.not_true, Bool.and_false,
      Bool.false_eq_true, if_false]

/-- Witness for the amended C4: owner 1 has no referral row (verified
false), generation succeeds with "yo", and the reply gets the watermark;
with the model disabled the echo fallback reply gets the watermark too. -/
theorem chat_reply_watermark_iff_owner_unverified_witness :
    chat_handler db0 1 1 "hi" true ⟨["k"], 0, some 0⟩ (fun _ => true)
        (fun _ => .ok "yo") =
      .replied (if (owner_remaining_referrals db0 1).2 = false then
          "yo" ++ watermark_text (owner_remaining_referrals db0 1).1
        else "yo") ⟨["k"], 0, some 0⟩ 1 ∧
    chat_handler db0 1 1 "hi" true ⟨["k"], 0, some 0⟩ (fun _ => true)
        (fun _ => .ok "yo") =
      chat_handler db0 1 2 "hi" true ⟨["k"], 0, some 0⟩ (fun _ => true)
        (fun _ => .ok "yo") ∧
    chat_handler db0 1 1 "hi" true ⟨["k"], 0, none⟩ (fun _ => true)
        (fun _ => .ok "yo") =
      .replied ("You said: " ++ "hi" ++
        watermark_text (owner_remaining_referrals db0 1).1) ⟨["k"], 0, none⟩ 0 := by
  have h := chat_reply_watermark_iff_owner_unverified db0 1 1 2 "hi" "yo"
    ⟨["k"], 0, some 0⟩ (fun _ => true) (fun _ => .ok "yo") 0 none rfl rfl
    (fun _ => rfl)
  refine ⟨h.1, h.2.1, ?_⟩
  have h3 := h.2.2 ⟨["k"], 0, none⟩ rfl
  simpa [clone_instructions] using h3

/-- Claim C6 evaluated at its failing input: the owner (sender id 1 equal
to CLONE_USER_ID) sends `/set_instructions You are terse.` against an
existing clone record, yet the handler replies with the failure notice and
the stored record still holds the old instructions, because the worker's
save call (clone_worker.py line 112) passes five positional arguments to
the four-parameter `db.save_clone` and that `TypeError` is caught by the
handler's except-branch.  A non-owner sender gets the rejection reply with
no state change, as claimed. -/
theorem set_instructions_owner_save_always_fails :
    set_instructions_handler dbC6 1 1 ["You", "are", "terse."] =
      .replied "❌ Failed to save instructions." dbC6 ∧
    get_clone dbC6 1 = .ok (some ⟨1, "mybot", "tok", "old", true⟩) ∧
    set_instructions_handler dbC6 1 2 ["You", "are", "terse."] =
      .replied "❌ Only the owner can change instructions." dbC6 :=
  ⟨rfl, rfl, rfl⟩

theorem lookupA_isSome_of_mem {κ α : Type} [DecidableEq κ] (l : List (κ × α)) (k : κ)
    (h : k ∈ l.map (fun p => p.1)) : (lookupA l k).isSome = true := by
  induction l with
  | nil => simp at h
  | cons hd tl ih =>
    obtain ⟨k', v'⟩ := hd
    by_cases hk : k' = k
    · simp [lookupA, hk]
    · simp only [List.map_cons, List.mem_cons] at h
      rcases h with h | h
    
      · exact absurd h.symm hk
      · simp [lookupA, hk, ih h]

theorem get_clone_user_id (db : DbState) (u : Nat) (c : CloneRec)
    (h : get_clone db u = .ok (some c)) : c.user_id = u := by
  rw [get_clone] at h
  cases hl : lookupA db.clones u with
  | none =>
    simp [hl] at h
  | some row =>
    simp only [hl] at h
    cases hd : decrypt db.masterKey row.token_encrypted with
    | none =>
      simp [hd] at h
    | some tok =>
      simp only [hd, Except.ok.injEq, Option.some.injEq] at h
      rw [← h]

theorem get_clone_ne_ok_none (db : DbState) (u : Nat)
    (hu : (lookupA db.clones u).isSome = true) : get_clone db u ≠ .ok none := by
  rw [get_clone]
  cases hl : lookupA db.clones u with
  | none =>
    rw [hl] at hu
    simp at hu
  | some row =>
    cases hd : decrypt db.masterKey row.token_encrypted with
    | none => simp [hd]
    | some tok => simp [hd]

theorem collect_clones_user_ids (db : DbState) :
    ∀ (uids : List Nat) (recs : List CloneRec),
      (∀ u ∈ uids, (lookupA db.clones u).isSome = true) →
      collect_clones db uids = .ok recs →
      recs.map CloneRec.user_id = uids := by
  intro uids
  induction uids with
  | nil =>
    intro recs _ h
    simp only [collect_clones] at h
    simp only [Except.ok.injEq] at h
    rw [← h]
    rfl
  | cons u rest ih =>
    intro recs hmem h
    have hu := hmem u (List.mem_cons_self u rest)
    cases hg : get_clone db u with
    | error e =>
      rw [collect_clones, hg] at h
      simp at h
    | ok c =>
      cases hrest : collect_clones db rest with
      | error e =>
        rw [collect_clones, hg, hrest] at h
        simp at h
      | ok others =>
        cases c with
        | none => exact absurd hg (get_clone_ne_ok_none db u hu)
        | some c =>
          rw [collect_clones, hg, hrest] at h
          simp only [Except.ok.injEq] at h
          rw [← h]
          have hrid : others.map CloneRec.user_id = rest :=
            ih others (fun v hv => hmem v (List.mem_cons_of_mem u hv)) hrest
          simp [get_clone_user_id db u c hg, hrid]

/-- Claim C8: on Orchestrator startup with the active records all readable,
exactly one worker spawn attempt is made per active record — the attempted
owner ids are exactly the user ids of the active rows, one attempt each —
and which spawns fail has no effect on the set of attempts: a failed spawn
is skipped without preventing the remaining attempts or aborting startup. -/
theorem reconcile_one_attempt_per_active_clone
    (db : DbState) (recs : List CloneRec) (spawnOk : Nat → Bool)
    (h : list_active_clones db = .ok recs) :
    (reconcile_on_startup db spawnOk).map Prod.fst = recs.map CloneRec.user_id ∧
    recs.map CloneRec.user_id =
      (db.clones.filter (fun p => p.2.active)).map (fun p => p.1) ∧
    (reconcile_on_startup db spawnOk).length = recs.length ∧
    ∀ spawnOk2 : Nat → Bool,
      (reconcile_on_startup db spawnOk2).map Prod.fst =
        (reconcile_on_startup db spawnOk).map Prod.fst := by
  have hids : recs.map CloneRec.user_id =
      (db.clones.filter (fun p => p.2.active)).map (fun p => p.1) := by
    apply collect_clones_user_ids db _ _ _ h
    intro u hu
    apply lookupA_isSome_of_mem
    exact List.map_subset _ (List.filter_sublist _).subset hu
  refine ⟨?_, hids, ?_, ?_⟩
  · simp [reconcile_on_startup, h, List.map_map, Function.comp]
  · simp [reconcile_on_startup, h]
  · intro spawnOk2
    simp [reconcile_on_startup, h, List.map_map, Function.comp]

/-- Witness for C8 at the spec's concrete scenario: two active clones with
owner ids 10 and 20, the spawn for 10 failing; both ids are still
attempted, in order. -/
theorem reconcile_one_attempt_per_active_clone_witness :
    (reconcile_on_startup dbC8 (fun u => decide (u = 20))).map Prod.fst = [10, 20] := by
  have h := reconcile_one_attempt_per_active_clone dbC8
    [⟨10, "b10", "t10", "i10", true⟩, ⟨20, "b20", "t20", "i20", true⟩]
    (fun u => decide (u = 20)) rfl
  simpa using h.1
